import Mathlib

/-!
Shallow embedding of the merkle-patricia-trie node decoder of
go-codec-dageth (package dageth_trie, file trie/unmarshal.go).

The decoder takes the fields of an RLP-parsed container (the external
rlp.DecodeBytes capability yields a `[]interface{}` whose elements are
`[]byte` or nested `[]interface{}`) and assembles an ipld map through a
NodeAssembler. The embedding models the assembled output as a `Value`
tree, Go errors as `Res.err`, and reachable Go runtime panics (the
unchecked type assertion in decodeCompactKey, out-of-range indexing) as
`Res.crash`.
-/

namespace DagethTrie

/-- A decoded RLP container field: rlp.DecodeBytes into `[]interface{}`
produces elements that are either byte strings or nested lists. Bytes are
modelled as natural numbers (< 256 on well-formed inputs). -/
inductive RawField : Type where
  | bytes (bs : List Nat)
  | list (fs : List RawField)

/-- Trie node kinds (EXTENSION_NODE, LEAF_NODE, BRANCH_NODE, UNKNOWN_NODE)
as used by decodeCompactKey and DecodeTrieNodeBytes. -/
inductive NodeKind : Type where
  | leaf
  | extension
  | branch
  | unknown

/-- One constructor per fmt.Errorf site of trie/unmarshal.go that is
reachable in the model. -/
inductive DecodeError : Type where
  | extensionNeedsPathBytes
  | leafEntryCount (n : Nat)
  | branchChildLength (n : Nat)
  | branchValueNotBytes
  | leafNeedsPathBytes
  | leafNeedsValueBytes
  | unknownHexPrefixError
  | unrecognizedNodeType

/-- Go runtime panics reachable in the source: the unchecked type
assertion i[0].([]byte) in decodeCompactKey, and out-of-range slice
indexing such as first[0] on an empty byte string. -/
inductive GoPanic : Type where
  | typeAssertionFailed
  | indexOutOfRange

/-- Outcome of a Go computation: normal value, returned error, or runtime
panic (crash). -/
inductive Res (α : Type) : Type where
  | ok (a : α)
  | err (e : DecodeError)
  | crash (p : GoPanic)

/-- Sequencing of fallible Go steps: errors and panics short-circuit. -/
def Res.bind {α β : Type} : Res α → (α → Res β) → Res β
  | Res.ok a, f => f a
  | Res.err e, _ => Res.err e
  | Res.crash p, _ => Res.crash p

/-- Whether an outcome is a runtime panic. -/
def Res.isCrash {α : Type} : Res α → Bool
  | Res.crash _ => true
  | _ => false

/-- Go slice indexing xs[n]: panics (index out of range) when n is out of
bounds. -/
def idx {α : Type} (xs : List α) (n : Nat) : Res α :=
  match List.get? xs n with
  | some a => Res.ok a
  | none => Res.crash GoPanic.indexOutOfRange

/-- Content identifier as produced by keccak256ToCid:
cid.NewCidV1(codec, multihash.Encode(h, KECCAK_256)). The multihash and
cid formatting is the external toLink capability and is modelled opaquely
as the (codec, hash) pair it is built from. -/
structure Cid : Type where
  codec : Nat
  hash : List Nat

/-- keccak256ToCid takes a keccak256 hash and returns its cid based on the
codec given (trie/unmarshal.go). multihash.Encode never fails for the
registered KECCAK_256 code, so the panic branch there is unreachable. -/
def keccak256ToCid (codec : Nat) (h : List Nat) : Cid :=
  ⟨codec, h⟩

/-- The ipld data written through the NodeAssembler: null, byte strings,
CID links, and maps whose entries are listed in assembly order. -/
inductive Value : Type where
  | null
  | bytes (bs : List Nat)
  | link (c : Cid)
  | map (entries : List (String × Value))

/-- nibbleToByte expands the nibbles of a byte slice into their own bytes
(trie/unmarshal.go): for each byte b it appends b/16 then b%16. -/
def nibbleToByte : List Nat → List Nat
  | [] => []
  | b :: k => b / 16 :: b % 16 :: nibbleToByte k

/-- Modelled from the spec: the NodeKind String() method is declared
outside src/ (only its call sites appear there); the spec's NodeKind enum
(section 3) names the kinds Leaf, Extension, Branch, Unknown, used as the
tag key of the output map. -/
def NodeKind.toStr : NodeKind → String
  | NodeKind.leaf => "Leaf"
  | NodeKind.extension => "Extension"
  | NodeKind.branch => "Branch"
  | NodeKind.unknown => "Unknown"

/-- decodeCompactKey takes the fields of a 2-item node and returns the
nodeKind together with the decoded fields. first := i[0].([]byte) is an
unchecked type assertion (a list field panics); first[0] panics on an
empty byte string. The switch on first[0]/16 handles 0-3 and fails on
any other value. -/
def decodeCompactKey (i : List RawField) : Res (NodeKind × List RawField) :=
  Res.bind (idx i 0) fun if0 =>
  match if0 with
  | RawField.list _ => Res.crash GoPanic.typeAssertionFailed
  | RawField.bytes first =>
    Res.bind (idx first 0) fun b =>
    if b / 16 = 0 then
      Res.bind (idx i 1) fun if1 =>
      Res.ok (NodeKind.extension, [RawField.bytes (List.drop 2 (nibbleToByte first)), if1])
    else if b / 16 = 1 then
      Res.bind (idx i 1) fun if1 =>
      Res.ok (NodeKind.extension, [RawField.bytes (List.drop 1 (nibbleToByte first)), if1])
    else if b / 16 = 2 then
      Res.bind (idx i 1) fun if1 =>
      Res.ok (NodeKind.leaf, [RawField.bytes (List.drop 2 (nibbleToByte first)), if1])
    else if b / 16 = 3 then
      Res.bind (idx i 1) fun if1 =>
      Res.ok (NodeKind.leaf, [RawField.bytes (List.drop 1 (nibbleToByte first)), if1])
    else
      Res.err DecodeError.unknownHexPrefixError

/-- unpackLeafNode (trie/unmarshal.go): both fields must be byte strings;
the first is written under "PartialPath" exactly as passed in (no
de-compaction happens here; the source comment asks "de-compact partial
path first???"), the second under "Value". The codec parameter is unused,
as in the source. -/
def unpackLeafNode (nodeFields : List RawField) (codec : Nat) : Res (List (String × Value)) :=
  Res.bind (idx nodeFields 0) fun f0 =>
  match f0 with
  | RawField.list _ => Res.err DecodeError.leafNeedsPathBytes
  | RawField.bytes partialPath =>
    Res.bind (idx nodeFields 1) fun f1 =>
    match f1 with
    | RawField.list _ => Res.err DecodeError.leafNeedsValueBytes
    | RawField.bytes valBytes =>
      Res.ok [("PartialPath", Value.bytes partialPath), ("Value", Value.bytes valBytes)]

/-- unpackExtensionNode (trie/unmarshal.go): writes "PartialPath", then
resolves the child field. A byte-string child of any length (no length
check) becomes a CID link; a list child must have exactly 2 entries and
is unpacked as an inline Leaf (the compact-key flag nibble of the embedded
node is never inspected). -/
def unpackExtensionNode (nodeFields : List RawField) (codec : Nat) : Res (List (String × Value)) :=
  Res.bind (idx nodeFields 0) fun f0 =>
  match f0 with
  | RawField.list _ => Res.err DecodeError.extensionNeedsPathBytes
  | RawField.bytes partialPath =>
    Res.bind (idx nodeFields 1) fun f1 =>
    match f1 with
    | RawField.bytes childLink =>
      Res.ok [("PartialPath", Value.bytes partialPath),
              ("Child", Value.link (keccak256ToCid codec childLink))]
    | RawField.list childLeaf =>
      if childLeaf.length ≠ 2 then
        Res.err (DecodeError.leafEntryCount childLeaf.length)
      else
        Res.bind (unpackLeafNode childLeaf codec) fun leafEntries =>
        Res.ok [("PartialPath", Value.bytes partialPath),
                ("Child", Value.map [("Leaf", Value.map leafEntries)])]

/-- One iteration of unpackBranchNode's child loop: a byte string of
length 0 becomes null, of length 32 becomes a CID link, any other length
fails; a list child must have exactly 2 entries and is unpacked as an
inline Leaf. -/
def unpackBranchChild (codec : Nat) (f : RawField) : Res Value :=
  match f with
  | RawField.bytes childLink =>
    if childLink.length = 0 then Res.ok Value.null
    else if childLink.length = 32 then Res.ok (Value.link (keccak256ToCid codec childLink))
    else Res.err (DecodeError.branchChildLength childLink.length)
  | RawField.list childLeaf =>
    if childLeaf.length ≠ 2 then
      Res.err (DecodeError.leafEntryCount childLeaf.length)
    else
      Res.bind (unpackLeafNode childLeaf codec) fun leafEntries =>
      Res.ok (Value.map [("Leaf", Value.map leafEntries)])

/-- The for i := 0; i < 16 loop of unpackBranchNode, unrolled over its
constant bound: resolves nodeFields[0]..nodeFields[15] in order into the
entries "Child0".."Child15". -/
def unpackBranchChildren (codec : Nat)
    (f0 f1 f2 f3 f4 f5 f6 f7 f8 f9 f10 f11 f12 f13 f14 f15 : RawField) :
    Res (List (String × Value)) :=
  Res.bind (unpackBranchChild codec f0) fun v0 =>
  Res.bind (unpackBranchChild codec f1) fun v1 =>
  Res.bind (unpackBranchChild codec f2) fun v2 =>
  Res.bind (unpackBranchChild codec f3) fun v3 =>
  Res.bind (unpackBranchChild codec f4) fun v4 =>
  Res.bind (unpackBranchChild codec f5) fun v5 =>
  Res.bind (unpackBranchChild codec f6) fun v6 =>
  Res.bind (unpackBranchChild codec f7) fun v7 =>
  Res.bind (unpackBranchChild codec f8) fun v8 =>
  Res.bind (unpackBranchChild codec f9) fun v9 =>
  Res.bind (unpackBranchChild codec f10) fun v10 =>
  Res.bind (unpackBranchChild codec f11) fun v11 =>
  Res.bind (unpackBranchChild codec f12) fun v12 =>
  Res.bind (unpackBranchChild codec f13) fun v13 =>
  Res.bind (unpackBranchChild codec f14) fun v14 =>
  Res.bind (unpackBranchChild codec f15) fun v15 =>
  Res.ok [("Child0", v0), ("Child1", v1), ("Child2", v2), ("Child3", v3),
          ("Child4", v4), ("Child5", v5), ("Child6", v6), ("Child7", v7),
          ("Child8", v8), ("Child9", v9), ("Child10", v10), ("Child11", v11),
          ("Child12", v12), ("Child13", v13), ("Child14", v14), ("Child15", v15)]

/-- unpackBranchNode (trie/unmarshal.go): resolves the 16 children, then
the 17th field, which must be a byte string (empty means a null value).
Go indexes nodeFields[0..16]; with fewer than 17 fields it would panic
out of range (its only caller passes exactly 17 fields). -/
def unpackBranchNode (nodeFields : List RawField) (codec : Nat) : Res (List (String × Value)) :=
  match nodeFields with
  | f0 :: f1 :: f2 :: f3 :: f4 :: f5 :: f6 :: f7 :: f8 :: f9 :: f10 :: f11 ::
      f12 :: f13 :: f14 :: f15 :: f16 :: _ =>
    Res.bind (unpackBranchChildren codec f0 f1 f2 f3 f4 f5 f6 f7 f8 f9 f10 f11 f12 f13 f14 f15)
      fun children =>
    match f16 with
    | RawField.list _ => Res.err DecodeError.branchValueNotBytes
    | RawField.bytes valBytes =>
      if valBytes.length = 0 then Res.ok (children ++ [("Value", Value.null)])
      else Res.ok (children ++ [("Value", Value.bytes valBytes)])
  | _ => Res.crash GoPanic.indexOutOfRange

/-- DecodeTrieNodeBytes after the external rlp.DecodeBytes call: dispatch
on the item count. 2 items: decode the compact key and unpack a Leaf or
Extension under its kind tag. 17 items: unpack a Branch. Any other count:
the switch has no default case, so the opened output map is finished empty
and nil is returned. -/
def decodeTrieNodeFields (nodeFields : List RawField) (codec : Nat) : Res Value :=
  if nodeFields.length = 2 then
    Res.bind (decodeCompactKey nodeFields) fun kd =>
    match kd with
    | (NodeKind.extension, decoded) =>
      Res.bind (unpackExtensionNode decoded codec) fun entries =>
      Res.ok (Value.map [(NodeKind.extension.toStr, Value.map entries)])
    | (NodeKind.leaf, decoded) =>
      Res.bind (unpackLeafNode decoded codec) fun entries =>
      Res.ok (Value.map [(NodeKind.leaf.toStr, Value.map entries)])
    | _ =>
      Res.err DecodeError.unrecognizedNodeType
  else if nodeFields.length = 17 then
    Res.bind (unpackBranchNode nodeFields codec) fun entries =>
    Res.ok (Value.map [(NodeKind.branch.toStr, Value.map entries)])
  else
    Res.ok (Value.map [])

/-! ## Helper lemmas -/

/-- Unfolding lemma for decodeCompactKey on a literal 2-item node whose
first field is a nonempty byte string. -/
theorem decodeCompactKey_cons (b : Nat) (bs : List Nat) (f1 : RawField) :
    decodeCompactKey [RawField.bytes (b :: bs), f1] =
      if b / 16 = 0 then
        Res.ok (NodeKind.extension, [RawField.bytes (List.drop 2 (nibbleToByte (b :: bs))), f1])
      else if b / 16 = 1 then
        Res.ok (NodeKind.extension, [RawField.bytes (List.drop 1 (nibbleToByte (b :: bs))), f1])
      else if b / 16 = 2 then
        Res.ok (NodeKind.leaf, [RawField.bytes (List.drop 2 (nibbleToByte (b :: bs))), f1])
      else if b / 16 = 3 then
        Res.ok (NodeKind.leaf, [RawField.bytes (List.drop 1 (nibbleToByte (b :: bs))), f1])
      else
        Res.err DecodeError.unknownHexPrefixError := rfl

theorem nibbleToByte_length (b : List Nat) : (nibbleToByte b).length = 2 * b.length := by
  induction b with
  | nil => rfl
  | cons x xs ih => simp [nibbleToByte, ih]; omega

theorem nibbleToByte_lt (b : List Nat) (hb : ∀ x ∈ b, x < 256) :
    ∀ y ∈ nibbleToByte b, y < 16 := by
  induction b with
  | nil => intro y hy; simp [nibbleToByte] at hy
  | cons x xs ih =>
    intro y hy
    have hx : x < 256 := hb x (by simp)
    simp [nibbleToByte] at hy
    rcases hy with h | h | h
    · subst h
      exact Nat.div_lt_of_lt_mul (by omega)
    · subst h
      exact Nat.mod_lt _ (by omega)
    · exact ih (fun z hz => hb z (by simp [hz])) y h

theorem nibbleToByte_get (b : List Nat) :
    ∀ i x, List.get? b i = some x →
      List.get? (nibbleToByte b) (2 * i) = some (x / 16) ∧
      List.get? (nibbleToByte b) (2 * i + 1) = some (x % 16) := by
  induction b with
  | nil => intro i x h; simp [List.get?] at h
  | cons z zs ih =>
    intro i x h
    cases i with
    | zero =>
      have hz : z = x := by simpa using h
      subst hz
      exact ⟨rfl, rfl⟩
    | succ j =>
      have h2 : List.get? zs j = some x := h
      exact ih j x h2

theorem Res.isCrash_bind {α β : Type} (r : Res α) (f : α → Res β)
    (hr : r.isCrash = false) (hf : ∀ a, (f a).isCrash = false) :
    (Res.bind r f).isCrash = false := by
  cases r with
  | ok a => exact hf a
  | err e => rfl
  | crash p => simp [Res.isCrash] at hr

theorem unpackLeafNode_isCrash (c0 c1 : RawField) (codec : Nat) :
    (unpackLeafNode [c0, c1] codec).isCrash = false := by
  cases c0 <;> cases c1 <;> rfl

theorem unpackExtensionNode_isCrash (c0 c1 : RawField) (codec : Nat) :
    (unpackExtensionNode [c0, c1] codec).isCrash = false := by
  cases c0 with
  | list fs => rfl
  | bytes p =>
    cases c1 with
    | bytes cb => rfl
    | list cs =>
      by_cases h : cs.length = 2
      · rcases cs with _ | ⟨a, _ | ⟨b, rest⟩⟩
        · simp at h
        · simp at h
        · rcases rest with _ | ⟨c, rest2⟩
          · have := unpackLeafNode_isCrash a b codec
            simp [unpackExtensionNode, idx, Res.bind, List.get?]
            cases hu : unpackLeafNode [a, b] codec with
            | ok v => rfl
            | err e => rfl
            | crash q => rw [hu] at this; simp [Res.isCrash] at this
          · simp at h
      · simp [unpackExtensionNode, idx, Res.bind, List.get?, h, Res.isCrash]

/-! ## Claims -/

/-- C1 counterexample: a 2-item child list whose compact-key flag nibble is
1 (Extension, odd) is silently accepted as an inline Leaf. Here the outer
Extension node [0x00 0xab, [0x1a, 0xcc]] carries the embedded list
[bytes [0x1a], bytes [0xcc]]; 0x1a has high nibble 1, marking an Extension
node, yet decoding succeeds with the child unpacked as a Leaf instead of
failing with InvalidEmbeddedNode. -/
theorem c1_counterexample :
    decodeTrieNodeFields
      [RawField.bytes [0, 171], RawField.list [RawField.bytes [26], RawField.bytes [204]]] 150 =
      Res.ok (Value.map [("Extension", Value.map
        [("PartialPath", Value.bytes [10, 11]),
         ("Child", Value.map [("Leaf", Value.map
           [("PartialPath", Value.bytes [26]), ("Value", Value.bytes [204])])])])]) := rfl

/-- C1 amended: an Extension or Branch child field that is a 2-item list is
always unpacked as an inline Leaf, without inspecting the embedded node's
compact-key flag nibble — Extension-flagged 2-item lists are silently
accepted as Leaf nodes. A list child of any other length (for example an
embedded 17-item Branch) fails with the leaf-entry-count error. -/
theorem c1_amended_embedded_lists (p k v : List Nat) (codec : Nat) (cs : List RawField)
    (h : cs.length ≠ 2) :
    unpackExtensionNode
        [RawField.bytes p, RawField.list [RawField.bytes k, RawField.bytes v]] codec =
      Res.ok [("PartialPath", Value.bytes p),
              ("Child", Value.map [("Leaf", Value.map
                [("PartialPath", Value.bytes k), ("Value", Value.bytes v)])])] ∧
    unpackExtensionNode [RawField.bytes p, RawField.list cs] codec =
      Res.err (DecodeError.leafEntryCount cs.length) ∧
    unpackBranchChild codec (RawField.list [RawField.bytes k, RawField.bytes v]) =
      Res.ok (Value.map [("Leaf", Value.map
        [("PartialPath", Value.bytes k), ("Value", Value.bytes v)])]) ∧
    unpackBranchChild codec (RawField.list cs) =
      Res.err (DecodeError.leafEntryCount cs.length) := by
  refine ⟨rfl, ?_, rfl, ?_⟩
  · simp [unpackExtensionNode, idx, Res.bind, List.get?, h]
  · simp [unpackBranchChild, h]

/-- C1 witness: instantiates the amended theorem at an Extension node whose
embedded 2-item list starts with 0x11 (Extension flag nibble 1); it is
accepted as an inline Leaf. -/
theorem c1_amended_embedded_lists_witness :
    unpackExtensionNode
        [RawField.bytes [1], RawField.list [RawField.bytes [17], RawField.bytes [2]]] 150 =
      Res.ok [("PartialPath", Value.bytes [1]),
              ("Child", Value.map [("Leaf", Value.map
                [("PartialPath", Value.bytes [17]), ("Value", Value.bytes [2])])])] :=
  (c1_amended_embedded_lists [1] [17] [2] 150 [] (by decide)).1

/-- C2 counterexample: an Extension node whose child field is a 3-byte
string decodes successfully to a CID link over those 3 bytes, instead of
failing with InvalidChildLength as the claim states. -/
theorem c2_counterexample :
    decodeTrieNodeFields [RawField.bytes [17], RawField.bytes [1, 2, 3]] 150 =
      Res.ok (Value.map [("Extension", Value.map
        [("PartialPath", Value.bytes [1]),
         ("Child", Value.link ⟨150, [1, 2, 3]⟩)])]) := rfl

/-- C2 amended: for every 2-item Extension node whose second field is a
byte string, the child is unconditionally resolved as
Link(toLink(codecTag, bytes)), with no length check at all: a length-0
child does not yield Empty, and no length fails with InvalidChildLength
(the length checks exist only on the Branch child path). -/
theorem c2_amended_extension_child_always_link (p cb : List Nat) (codec : Nat) :
    unpackExtensionNode [RawField.bytes p, RawField.bytes cb] codec =
      Res.ok [("PartialPath", Value.bytes p),
              ("Child", Value.link (keccak256ToCid codec cb))] := rfl

/-- C3: for every successfully parsed container whose item count is
neither 2 nor 17, decoding completes without an error and emits an empty
output map to the builder, rather than surfacing a malformed-node error. -/
theorem c3_nonstandard_item_count_silently_ok (nodeFields : List RawField) (codec : Nat)
    (h2 : nodeFields.length ≠ 2) (h17 : nodeFields.length ≠ 17) :
    decodeTrieNodeFields nodeFields codec = Res.ok (Value.map []) := by
  simp [decodeTrieNodeFields, h2, h17]

/-- C3 witness: a 3-item container decodes to the empty map without
error. -/
theorem c3_nonstandard_item_count_witness :
    decodeTrieNodeFields [RawField.bytes [], RawField.bytes [], RawField.bytes []] 150 =
      Res.ok (Value.map []) :=
  c3_nonstandard_item_count_silently_ok
    [RawField.bytes [], RawField.bytes [], RawField.bytes []] 150 (by decide) (by decide)

/-- C4: decodeCompactKey implements the hex-prefix table on every 2-item
node with a nonempty byte-string first field: high nibble 0 yields
(Extension, expand(first) minus 2 leading nibbles), 1 yields (Extension,
minus 1), 2 yields (Leaf, minus 2), 3 yields (Leaf, minus 1), and any
other high nibble fails with the unknown-hex-prefix error. -/
theorem c4_compact_key_table (b : Nat) (bs : List Nat) (f1 : RawField) :
    (b / 16 = 0 → decodeCompactKey [RawField.bytes (b :: bs), f1] =
      Res.ok (NodeKind.extension,
        [RawField.bytes (List.drop 2 (nibbleToByte (b :: bs))), f1])) ∧
    (b / 16 = 1 → decodeCompactKey [RawField.bytes (b :: bs), f1] =
      Res.ok (NodeKind.extension,
        [RawField.bytes (List.drop 1 (nibbleToByte (b :: bs))), f1])) ∧
    (b / 16 = 2 → decodeCompactKey [RawField.bytes (b :: bs), f1] =
      Res.ok (NodeKind.leaf,
        [RawField.bytes (List.drop 2 (nibbleToByte (b :: bs))), f1])) ∧
    (b / 16 = 3 → decodeCompactKey [RawField.bytes (b :: bs), f1] =
      Res.ok (NodeKind.leaf,
        [RawField.bytes (List.drop 1 (nibbleToByte (b :: bs))), f1])) ∧
    (4 ≤ b / 16 → decodeCompactKey [RawField.bytes (b :: bs), f1] =
      Res.err DecodeError.unknownHexPrefixError) := by
  refine ⟨fun h => ?_, fun h => ?_, fun h => ?_, fun h => ?_, fun h => ?_⟩
  · rw [decodeCompactKey_cons]; simp [h]
  · rw [decodeCompactKey_cons]; simp [h]
  · rw [decodeCompactKey_cons]; simp [h]
  · rw [decodeCompactKey_cons]; simp [h]
  · have h0 : ¬ b / 16 = 0 := by omega
    have h1 : ¬ b / 16 = 1 := by omega
    have h2 : ¬ b / 16 = 2 := by omega
    have h3 : ¬ b / 16 = 3 := by omega
    rw [decodeCompactKey_cons]; simp [h0, h1, h2, h3]

/-- C4 witness: byte 0x20 (high nibble 2, even flag) classifies as a Leaf
with an empty de-compacted path. -/
theorem c4_compact_key_table_witness :
    decodeCompactKey [RawField.bytes [32], RawField.bytes [97]] =
      Res.ok (NodeKind.leaf, [RawField.bytes [], RawField.bytes [97]]) :=
  (c4_compact_key_table 32 [] (RawField.bytes [97])).2.2.1 (by decide)

/-- C5: for every byte sequence b of byte values, expansion into nibbles
has length exactly 2 * len(b), every output value is in [0, 15], and for
each input byte the high nibble (byte / 16) is emitted at the even index
directly before the low nibble (byte % 16); the function is total. -/
theorem c5_expand_props (b : List Nat) (hb : ∀ x ∈ b, x < 256) :
    (nibbleToByte b).length = 2 * b.length ∧
    (∀ y ∈ nibbleToByte b, y < 16) ∧
    (∀ i x, List.get? b i = some x →
      List.get? (nibbleToByte b) (2 * i) = some (x / 16) ∧
      List.get? (nibbleToByte b) (2 * i + 1) = some (x % 16)) :=
  ⟨nibbleToByte_length b, nibbleToByte_lt b hb, nibbleToByte_get b⟩

/-- C5 witness: instantiation at the single byte 0xab. -/
theorem c5_expand_props_witness :
    (nibbleToByte [171]).length = 2 * [171].length :=
  (c5_expand_props [171] (by decide)).1

/-- C6 counterexample: an Extension node with the embedded leaf
[0x20, "a"] writes PartialPath = the raw compact byte 0x20 (= 32, not a
nibble in 0-15) for the embedded Leaf, not the de-compacted nibble
sequence (which would be empty). -/
theorem c6_counterexample :
    decodeTrieNodeFields
        [RawField.bytes [16], RawField.list [RawField.bytes [32], RawField.bytes [97]]] 150 =
      Res.ok (Value.map [("Extension", Value.map
        [("PartialPath", Value.bytes [0]),
         ("Child", Value.map [("Leaf", Value.map
           [("PartialPath", Value.bytes [32]), ("Value", Value.bytes [97])])])])]) ∧
    Value.bytes [32] ≠ Value.bytes (List.drop 2 (nibbleToByte [32])) := by
  refine ⟨rfl, ?_⟩
  simp [nibbleToByte]

/-- C6 amended: a top-level Leaf node's PartialPath entry is the
de-compacted nibble sequence produced by decodeCompactKey, but an embedded
Leaf (inside an Extension or Branch child) has its first field written to
PartialPath as the raw compact-encoded bytes, with no de-compaction. -/
theorem c6_amended_partial_paths (b : Nat) (bs v k ev : List Nat) (codec : Nat)
    (h : b / 16 = 2) :
    decodeTrieNodeFields [RawField.bytes (b :: bs), RawField.bytes v] codec =
      Res.ok (Value.map [("Leaf", Value.map
        [("PartialPath", Value.bytes (List.drop 2 (nibbleToByte (b :: bs)))),
         ("Value", Value.bytes v)])]) ∧
    unpackLeafNode [RawField.bytes k, RawField.bytes ev] codec =
      Res.ok [("PartialPath", Value.bytes k), ("Value", Value.bytes ev)] := by
  constructor
  · simp [decodeTrieNodeFields, decodeCompactKey_cons, h, Res.bind, unpackLeafNode, idx,
          List.get?, NodeKind.toStr]
  · rfl

/-- C6 witness: the top-level leaf [0x20, "a"] gets the de-compacted
(empty) partial path. -/
theorem c6_amended_partial_paths_witness :
    decodeTrieNodeFields [RawField.bytes [32], RawField.bytes [97]] 150 =
      Res.ok (Value.map [("Leaf", Value.map
        [("PartialPath", Value.bytes []), ("Value", Value.bytes [97])])]) :=
  (c6_amended_partial_paths 32 [] [97] [5] [6] 150 (by decide)).1

/-- C7: a 17-field node whose field 5 is a 32-byte hash H, whose other 15
child fields are empty byte strings, and whose 17th field is an empty byte
string, decodes to a Branch with Child5 = Link(toLink(codec, H)), every
other child null (Empty), and Value = null. -/
theorem c7_branch_single_hash_child (H : List Nat) (codec : Nat) (h : H.length = 32) :
    decodeTrieNodeFields
      [RawField.bytes [], RawField.bytes [], RawField.bytes [], RawField.bytes [],
       RawField.bytes [], RawField.bytes H, RawField.bytes [], RawField.bytes [],
       RawField.bytes [], RawField.bytes [], RawField.bytes [], RawField.bytes [],
       RawField.bytes [], RawField.bytes [], RawField.bytes [], RawField.bytes [],
       RawField.bytes []] codec =
      Res.ok (Value.map [("Branch", Value.map
        [("Child0", Value.null), ("Child1", Value.null), ("Child2", Value.null),
         ("Child3", Value.null), ("Child4", Value.null),
         ("Child5", Value.link ⟨codec, H⟩),
         ("Child6", Value.null), ("Child7", Value.null), ("Child8", Value.null),
         ("Child9", Value.null), ("Child10", Value.null), ("Child11", Value.null),
         ("Child12", Value.null), ("Child13", Value.null), ("Child14", Value.null),
         ("Child15", Value.null), ("Value", Value.null)])]) := by
  have h0 : ¬ H.length = 0 := by omega
  simp [decodeTrieNodeFields, unpackBranchNode, unpackBranchChildren, unpackBranchChild,
        keccak256ToCid, Res.bind, h, h0, NodeKind.toStr]

/-- C7 witness: instantiation at the 32-byte hash consisting of 0xaa
bytes. -/
theorem c7_branch_single_hash_child_witness :
    decodeTrieNodeFields
      [RawField.bytes [], RawField.bytes [], RawField.bytes [], RawField.bytes [],
       RawField.bytes [], RawField.bytes (List.replicate 32 170), RawField.bytes [],
       RawField.bytes [], RawField.bytes [], RawField.bytes [], RawField.bytes [],
       RawField.bytes [], RawField.bytes [], RawField.bytes [], RawField.bytes [],
       RawField.bytes [], RawField.bytes []] 150 =
      Res.ok (Value.map [("Branch", Value.map
        [("Child0", Value.null), ("Child1", Value.null), ("Child2", Value.null),
         ("Child3", Value.null), ("Child4", Value.null),
         ("Child5", Value.link ⟨150, List.replicate 32 170⟩),
         ("Child6", Value.null), ("Child7", Value.null), ("Child8", Value.null),
         ("Child9", Value.null), ("Child10", Value.null), ("Child11", Value.null),
         ("Child12", Value.null), ("Child13", Value.null), ("Child14", Value.null),
         ("Child15", Value.null), ("Value", Value.null)])]) :=
  c7_branch_single_hash_child (List.replicate 32 170) 150 (by decide)

/-- C8: in a 17-item node whose 16 children resolve successfully, the 17th
field must be a byte string: an empty byte string yields a null Value
entry, a nonempty byte string yields the raw bytes as the Value entry, and
a non-byte-string (list) 17th field fails with the branch-value error. -/
theorem c8_branch_value_field
    (f0 f1 f2 f3 f4 f5 f6 f7 f8 f9 f10 f11 f12 f13 f14 f15 : RawField)
    (codec : Nat) (children : List (String × Value))
    (hc : unpackBranchChildren codec f0 f1 f2 f3 f4 f5 f6 f7 f8 f9 f10 f11 f12 f13 f14 f15 =
      Res.ok children) :
    (unpackBranchNode [f0, f1, f2, f3, f4, f5, f6, f7, f8, f9, f10, f11, f12, f13, f14, f15,
        RawField.bytes []] codec =
      Res.ok (children ++ [("Value", Value.null)])) ∧
    (∀ v vs, unpackBranchNode [f0, f1, f2, f3, f4, f5, f6, f7, f8, f9, f10, f11, f12, f13,
        f14, f15, RawField.bytes (v :: vs)] codec =
      Res.ok (children ++ [("Value", Value.bytes (v :: vs))])) ∧
    (∀ ls, unpackBranchNode [f0, f1, f2, f3, f4, f5, f6, f7, f8, f9, f10, f11, f12, f13,
        f14, f15, RawField.list ls] codec =
      Res.err DecodeError.branchValueNotBytes) := by
  refine ⟨?_, fun v vs => ?_, fun ls => ?_⟩ <;> simp [unpackBranchNode, hc, Res.bind]

/-- C8 witness: instantiation at the all-empty branch node; the 17th field
being empty yields a null Value entry. -/
theorem c8_branch_value_field_witness :
    unpackBranchNode
      [RawField.bytes [], RawField.bytes [], RawField.bytes [], RawField.bytes [],
       RawField.bytes [], RawField.bytes [], RawField.bytes [], RawField.bytes [],
       RawField.bytes [], RawField.bytes [], RawField.bytes [], RawField.bytes [],
       RawField.bytes [], RawField.bytes [], RawField.bytes [], RawField.bytes [],
       RawField.bytes []] 150 =
      Res.ok ([("Child0", Value.null), ("Child1", Value.null), ("Child2", Value.null),
        ("Child3", Value.null), ("Child4", Value.null), ("Child5", Value.null),
        ("Child6", Value.null), ("Child7", Value.null), ("Child8", Value.null),
        ("Child9", Value.null), ("Child10", Value.null), ("Child11", Value.null),
        ("Child12", Value.null), ("Child13", Value.null), ("Child14", Value.null),
        ("Child15", Value.null)] ++ [("Value", Value.null)]) :=
  (c8_branch_value_field (RawField.bytes []) (RawField.bytes []) (RawField.bytes [])
    (RawField.bytes []) (RawField.bytes []) (RawField.bytes []) (RawField.bytes [])
    (RawField.bytes []) (RawField.bytes []) (RawField.bytes []) (RawField.bytes [])
    (RawField.bytes []) (RawField.bytes []) (RawField.bytes []) (RawField.bytes [])
    (RawField.bytes []) 150
    [("Child0", Value.null), ("Child1", Value.null), ("Child2", Value.null),
     ("Child3", Value.null), ("Child4", Value.null), ("Child5", Value.null),
     ("Child6", Value.null), ("Child7", Value.null), ("Child8", Value.null),
     ("Child9", Value.null), ("Child10", Value.null), ("Child11", Value.null),
     ("Child12", Value.null), ("Child13", Value.null), ("Child14", Value.null),
     ("Child15", Value.null)] rfl).1

/-- C9: decoding a 2-item node whose first field is a nested list crashes
with the unchecked-type-assertion panic of first := i[0].([]byte) in
decodeCompactKey, instead of returning a type error to the caller as the
claim (and the error-handling policy of the rest of the file) requires. -/
theorem c9_type_assertion_crash :
    decodeTrieNodeFields [RawField.list [], RawField.bytes []] 150 =
      Res.crash GoPanic.typeAssertionFailed := rfl

/-- C10: decoding a 2-item node whose first field is an empty byte string
crashes with an index-out-of-range panic (first[0] has no bounds check)
rather than returning a decode error; and whenever the first field is a
nonempty byte string, decoding a 2-item node never crashes, so decode
totality on 2-item nodes requires exactly that the first field be
nonempty. -/
theorem c10_empty_compact_key_crash :
    (∀ (f1 : RawField) (codec : Nat),
      decodeTrieNodeFields [RawField.bytes [], f1] codec =
        Res.crash GoPanic.indexOutOfRange) ∧
    (∀ (b : Nat) (bs : List Nat) (f1 : RawField) (codec : Nat),
      (decodeTrieNodeFields [RawField.bytes (b :: bs), f1] codec).isCrash = false) := by
  constructor
  · intro f1 codec; rfl
  · intro b bs f1 codec
    rcases Nat.lt_or_ge (b / 16) 4 with hlt | hge
    · have hcases : b / 16 = 0 ∨ b / 16 = 1 ∨ b / 16 = 2 ∨ b / 16 = 3 := by omega
      rcases hcases with h | h | h | h
      · have heq : decodeTrieNodeFields [RawField.bytes (b :: bs), f1] codec =
            Res.bind (unpackExtensionNode
                [RawField.bytes (List.drop 2 (nibbleToByte (b :: bs))), f1] codec)
              (fun entries =>
                Res.ok (Value.map [(NodeKind.extension.toStr, Value.map entries)])) := by
          simp [decodeTrieNodeFields, decodeCompactKey_cons, h, Res.bind]
        rw [heq]
        exact Res.isCrash_bind _ _ (unpackExtensionNode_isCrash _ _ _) (fun a => rfl)
      · have heq : decodeTrieNodeFields [RawField.bytes (b :: bs), f1] codec =
            Res.bind (unpackExtensionNode
                [RawField.bytes (List.drop 1 (nibbleToByte (b :: bs))), f1] codec)
              (fun entries =>
                Res.ok (Value.map [(NodeKind.extension.toStr, Value.map entries)])) := by
          simp [decodeTrieNodeFields, decodeCompactKey_cons, h, Res.bind]
        rw [heq]
        exact Res.isCrash_bind _ _ (unpackExtensionNode_isCrash _ _ _) (fun a => rfl)
      · have heq : decodeTrieNodeFields [RawField.bytes (b :: bs), f1] codec =
            Res.bind (unpackLeafNode
                [RawField.bytes (List.drop 2 (nibbleToByte (b :: bs))), f1] codec)
              (fun entries =>
                Res.ok (Value.map [(NodeKind.leaf.toStr, Value.map entries)])) := by
          simp [decodeTrieNodeFields, decodeCompactKey_cons, h, Res.bind]
        rw [heq]
        exact Res.isCrash_bind _ _ (unpackLeafNode_isCrash _ _ _) (fun a => rfl)
      · have heq : decodeTrieNodeFields [RawField.bytes (b :: bs), f1] codec =
            Res.bind (unpackLeafNode
                [RawField.bytes (List.drop 1 (nibbleToByte (b :: bs))), f1] codec)
              (fun entries =>
                Res.ok (Value.map [(NodeKind.leaf.toStr, Value.map entries)])) := by
          simp [decodeTrieNodeFields, decodeCompactKey_cons, h, Res.bind]
        rw [heq]
        exact Res.isCrash_bind _ _ (unpackLeafNode_isCrash _ _ _) (fun a => rfl)
    · have h0 : ¬ b / 16 = 0 := by omega
      have h1 : ¬ b / 16 = 1 := by omega
      have h2 : ¬ b / 16 = 2 := by omega
      have h3 : ¬ b / 16 = 3 := by omega
      simp [decodeTrieNodeFields, decodeCompactKey_cons, h0, h1, h2, h3, Res.bind, Res.isCrash]

end DagethTrie
